import Mathlib

/-!
Verification development for a tree-walking Lox interpreter written in
TypeScript.  The definitions below are a shallow embedding of the source
files `src/interpreter.ts`, `src/resolver.ts` (which also contains the
scanner), `src/parser.ts` and the shared `types.ts` / `environment.ts`
modules.  Mutable runtime objects (environments, instances) are modelled
by an explicit heap inside a state record; JavaScript object identity for
functions and classes is modelled by a unique id (`uid`) stamped at
allocation time; the JavaScript `undefined` value, which can leak into the
interpreter through `Environment.getAt`'s unchecked `as Value` cast, is
modelled by an explicit `Value.undef` constructor.
-/

/-- A scanner/parser token: `lexeme` and 1-based `line`
(from `types.ts`, fields `lexeme` and `line`; the `type` field of operator
tokens is carried separately in the AST's operator payloads). -/
structure Tok where
  lexeme : String
  line : Nat
deriving DecidableEq, Repr

/-- Model of a JavaScript number (IEEE-754 double) as used by the
interpreter: either NaN or a finite value given by a rational together
with a negative-zero flag (meaningful when the rational is 0, so that
`-0` and `0` are distinct values that compare equal).  Infinities and
rounding are not modelled; no theorem below depends on the result of an
arithmetic operation, only on `===`-equality of numbers. -/
inductive LoxNum where
  | nan : LoxNum
  | fin (q : Rat) (negZero : Bool) : LoxNum
deriving DecidableEq, Repr

/-- JavaScript `===` on numbers: NaN is equal to nothing (including
itself); finite values compare by numeric value, so `-0 === 0`. -/
def jsEqNum : LoxNum → LoxNum → Bool
  | .nan, _ => false
  | _, .nan => false
  | .fin q _, .fin r _ => q == r

/-- JavaScript `<` on numbers (used by the interpreter's comparisons):
false whenever NaN is involved. -/
def jsLtNum : LoxNum → LoxNum → Bool
  | .nan, _ => false
  | _, .nan => false
  | .fin q _, .fin r _ => q < r

/-- JavaScript `<=` on numbers: false whenever NaN is involved. -/
def jsLeNum : LoxNum → LoxNum → Bool
  | .nan, _ => false
  | _, .nan => false
  | .fin q _, .fin r _ => q ≤ r

/-- Numeric addition (`+` on two numbers).  The negative-zero flag of the
result is approximated as positive; no theorem depends on it. -/
def jsAddNum : LoxNum → LoxNum → LoxNum
  | .fin q _, .fin r _ => .fin (q + r) false
  | _, _ => .nan

/-- Numeric subtraction. -/
def jsSubNum : LoxNum → LoxNum → LoxNum
  | .fin q _, .fin r _ => .fin (q - r) false
  | _, _ => .nan

/-- Numeric multiplication. -/
def jsMulNum : LoxNum → LoxNum → LoxNum
  | .fin q _, .fin r _ => .fin (q * r) false
  | _, _ => .nan

/-- Numeric division.  Division by zero yields infinity in IEEE
arithmetic, which this model collapses to NaN; no theorem depends on it. -/
def jsDivNum : LoxNum → LoxNum → LoxNum
  | .fin q _, .fin r _ => if r = 0 then .nan else .fin (q / r) false
  | _, _ => .nan

/-- Unary negation (`-x`), which turns `0` into `-0` and back. -/
def jsNegNum : LoxNum → LoxNum
  | .nan => .nan
  | .fin q nz => if q = 0 then .fin 0 (!nz) else .fin (-q) nz

/-- Literal payloads of `Literal` AST nodes
(`types.ts`: `value: number | string | boolean | null`). -/
inductive Lit where
  | nil : Lit
  | bool (b : Bool) : Lit
  | num (n : LoxNum) : Lit
  | str (s : String) : Lit
deriving DecidableEq, Repr

/-- Binary operator token kinds accepted by `Binary` nodes
(`types.ts`, `BinaryTokenType`). -/
inductive BinOp where
  | minus | plus | slash | star
  | greater | greater_equal | less | less_equal
  | bang_equal | equal_equal
deriving DecidableEq, Repr

/-- Unary operator token kinds (`types.ts`, `UnaryTokenType`). -/
inductive UnOp where
  | bang | minus
deriving DecidableEq, Repr

/-- Logical operator token kinds (`types.ts`, `LogicalTokenType`). -/
inductive LogOp where
  | orOp | andOp
deriving DecidableEq, Repr

mutual

/-- Expression AST (`types.ts`, `Expr`).  The nodes the resolver uses as
side-table keys (`Assignment`, `Variable`, `This`, `Super`) carry a
pre-assigned identity `id : Nat`, modelling JavaScript object identity of
the node as sanctioned by the specification's design notes. -/
inductive Expr where
  | assignment (id : Nat) (name : Tok) (value : Expr) : Expr
  | binary (left : Expr) (op : BinOp) (opTok : Tok) (right : Expr) : Expr
  | call (callee : Expr) (paren : Tok) (args : List Expr) : Expr
  | get (object : Expr) (name : Tok) : Expr
  | grouping (expression : Expr) : Expr
  | literal (value : Lit) : Expr
  | logical (left : Expr) (op : LogOp) (right : Expr) : Expr
  | set (object : Expr) (name : Tok) (value : Expr) : Expr
  | superE (id : Nat) (keyword : Tok) (method : Tok) : Expr
  | thisE (id : Nat) (keyword : Tok) : Expr
  | unary (op : UnOp) (opTok : Tok) (right : Expr) : Expr
  | varE (id : Nat) (name : Tok) : Expr

/-- Statement AST (`types.ts`, `Stmt`).  Note there is no `for` variant:
the parser desugars `for` loops entirely (see `forDesugar` below).  A
class's optional superclass is a `Variable` expression; it is stored here
as the pair of that node's identity and name token. -/
inductive Stmt where
  | block (statements : List Stmt) : Stmt
  | classDecl (name : Tok) (superclass : Option (Nat × Tok))
      (methods : List FunDecl) : Stmt
  | expression (e : Expr) : Stmt
  | funDecl (f : FunDecl) : Stmt
  | ifS (condition : Expr) (thenBranch : Stmt) (elseBranch : Option Stmt) : Stmt
  | print (e : Expr) : Stmt
  | ret (keyword : Tok) (value : Option Expr) : Stmt
  | varDecl (name : Tok) (initializer : Option Expr) : Stmt
  | whileS (condition : Expr) (body : Stmt) : Stmt

/-- A function declaration (`types.ts`, `FunctionStmt`). -/
inductive FunDecl where
  | mk (name : Tok) (params : List Tok) (body : List Stmt) : FunDecl

end

/-- Name token of a function declaration. -/
def FunDecl.name : FunDecl → Tok
  | .mk n _ _ => n

/-- Parameter tokens of a function declaration. -/
def FunDecl.params : FunDecl → List Tok
  | .mk _ p _ => p

/-- Body statements of a function declaration. -/
def FunDecl.body : FunDecl → List Stmt
  | .mk _ _ b => b

/-- Association-list update with JavaScript `Map.set` semantics: replace
in place when the key is present, append otherwise. -/
def alset {κ α : Type} [DecidableEq κ] (k : κ) (v : α) :
    List (κ × α) → List (κ × α)
  | [] => [(k, v)]
  | (k', v') :: rest =>
      if k' = k then (k', v) :: rest else (k', v') :: alset k v rest

/-- Association-list lookup with JavaScript `Map.get` semantics. -/
def alget {κ α : Type} [DecidableEq κ] (k : κ) : List (κ × α) → Option α
  | [] => none
  | (k', v) :: rest => if k' = k then some v else alget k rest

theorem alget_alset_self {κ α : Type} [DecidableEq κ] (k : κ) (v : α)
    (l : List (κ × α)) : alget k (alset k v l) = some v := by
  induction l with
  | nil => simp [alset, alget]
  | cons hd tl ih =>
      obtain ⟨k', v'⟩ := hd
      by_cases h : k' = k <;> simp [alset, alget, h, ih]

example : alget "a" (alset "a" 1 [("a", 2), ("b", 3)]) = some 1 := by
  simp [alset, alget]

example : "Undefined property 'x'." = "Undefined property " ++ "'x'." := by rfl

/-- A user Lox function (`interpreter.ts`, `class LoxFunction`): the
declaration, the id of the captured closure environment, and the
initializer flag.  `uid` models JavaScript object identity: every
`new LoxFunction(...)` stamps a fresh uid. -/
structure LoxFun where
  uid : Nat
  decl : FunDecl
  closure : Nat
  isInitializer : Bool

/-- A Lox class (`interpreter.ts`, `class LoxClass`): name, optional
superclass, and the method table in declaration order with `Map.set`
update semantics.  Classes are immutable after construction in the
source, so the superclass reference is embedded structurally; `uid`
models the object's identity. -/
inductive LoxClass where
  | mk (uid : Nat) (name : String) (superclass : Option LoxClass)
      (methods : List (String × LoxFun)) : LoxClass

/-- Identity uid of a class. -/
def LoxClass.uid : LoxClass → Nat
  | .mk u _ _ _ => u

/-- Name of a class. -/
def LoxClass.name : LoxClass → String
  | .mk _ n _ _ => n

/-- Superclass of a class, if any. -/
def LoxClass.superclass : LoxClass → Option LoxClass
  | .mk _ _ s _ => s

/-- Method table of a class. -/
def LoxClass.methods : LoxClass → List (String × LoxFun)
  | .mk _ _ _ m => m

/-- `LoxClass.findMethod` (`interpreter.ts` lines 103-111): own method
table first, else recurse into the superclass when there is one, else a
miss. -/
def LoxClass.findMethod : LoxClass → String → Option LoxFun
  | .mk _ _ none ms, name =>
    match alget name ms with
    | some f => some f
    | none => none
  | .mk _ _ (some k) ms, name =>
    match alget name ms with
    | some f => some f
    | none => k.findMethod name

/-- Runtime values (`interpreter.ts`,
`type Value = null | boolean | string | number | Callable | LoxInstance`).
Instances are mutable and live in the heap, referenced by index.
`clockFn` is the single built-in `clock` callable installed in the
globals.  `undef` models the JavaScript `undefined` value that
`Environment.getAt` can produce through its unchecked cast; it is not a
member of the TypeScript `Value` union but can occur at runtime. -/
inductive Value where
  | undef : Value
  | nil : Value
  | bool (b : Bool) : Value
  | num (n : LoxNum) : Value
  | str (s : String) : Value
  | fn (f : LoxFun) : Value
  | klass (k : LoxClass) : Value
  | inst (i : Nat) : Value
  | clockFn : Value

/-- Discriminator: is this the JavaScript `undefined` value? -/
def Value.isUndefB : Value → Bool
  | .undef => true
  | _ => false

/-- Discriminator: is this `nil` (JavaScript `null`)? -/
def Value.isNilB : Value → Bool
  | .nil => true
  | _ => false

/-- Discriminator: is this a `LoxInstance` reference? -/
def Value.isInstanceB : Value → Bool
  | .inst _ => true
  | _ => false

/-- Tag of a value, for stating cross-tag equality facts. -/
def Value.tag : Value → Nat
  | .undef => 0
  | .nil => 1
  | .bool _ => 2
  | .num _ => 3
  | .str _ => 4
  | .fn _ => 5
  | .klass _ => 6
  | .inst _ => 7
  | .clockFn => 8

/-- JavaScript `===` on runtime values: primitives compare structurally
(numbers by IEEE equality), objects by identity (uid for functions and
classes, heap index for instances; `clock` is a single shared object). -/
def jsStrictEq : Value → Value → Bool
  | .undef, .undef => true
  | .nil, .nil => true
  | .bool x, .bool y => x == y
  | .num x, .num y => jsEqNum x y
  | .str x, .str y => x == y
  | .fn f, .fn g => f.uid == g.uid
  | .klass k, .klass l => k.uid == l.uid
  | .inst i, .inst j => i == j
  | .clockFn, .clockFn => true
  | _, _ => false

/-- `isEqual` (`interpreter.ts` lines 556-564): `nil == nil` is true,
`nil` against anything else is false, otherwise JavaScript `===`. -/
def isEqual (a b : Value) : Bool :=
  if a.isNilB && b.isNilB then true
  else if a.isNilB then false
  else jsStrictEq a b

/-- `isTruthy` (`interpreter.ts` lines 546-554): `nil` is false, booleans
are themselves, everything else (including `undefined`, `0` and `""`) is
true. -/
def isTruthy : Value → Bool
  | .nil => false
  | .bool b => b
  | _ => true

/-- Conversion of a literal payload to a runtime value
(`Interpreter.evaluateLiteral`). -/
def litToValue : Lit → Value
  | .nil => .nil
  | .bool b => .bool b
  | .num n => .num n
  | .str s => .str s

/-- An environment frame (`environment.ts`, `class Environment`): the
optional enclosing frame (by heap id) and the name-to-value map. -/
structure Frame where
  enclosing : Option Nat
  values : List (String × Value)

/-- Heap record of a `LoxInstance` (`interpreter.ts`, `class
LoxInstance`): its class (immutable) and its mutable field map. -/
structure InstData where
  klass : LoxClass
  fields : List (String × Value)

/-- A runtime error (`interpreter.ts`, `class RuntimeError`). -/
structure RtErr where
  token : Tok
  message : String

/-- Interpreter state: the environment heap (frame 0 is the globals), the
instance heap, the id of the interpreter's current environment, the
resolver side-table `locals` (expression identity to depth), the stdout
sink, the counter stamping object identities, and the host clock value in
milliseconds. -/
structure St where
  frames : List Frame
  instances : List InstData
  environment : Nat
  locals : List (Nat × Nat)
  output : List String
  nextUid : Nat
  clockMs : Rat

/-- Outcome of executing a statement or evaluating an expression:
normal completion, the `Return` control signal, a `RuntimeError`, a host
crash (a JavaScript `TypeError` from dereferencing `null`/`undefined`
after an unsound cast — never a Lox-level error), or out of fuel
(modelling nontermination). -/
inductive Outcome (α : Type) where
  | ok (a : α) : Outcome α
  | ret (v : Value) : Outcome α
  | err (e : RtErr) : Outcome α
  | crash : Outcome α
  | diverge : Outcome α

/-- Fetch a frame from the heap. -/
def getFrame (st : St) (e : Nat) : Option Frame :=
  st.frames.get? e

/-- Replace a frame in the heap. -/
def setFrame (st : St) (e : Nat) (fr : Frame) : St :=
  { st with frames := st.frames.set e fr }

/-- `Environment.define` (`environment.ts`): set a name in the frame's
map.  All frame ids produced by the interpreter are in bounds, so the
out-of-range branch is unreachable and leaves the state unchanged. -/
def envDefine (st : St) (e : Nat) (name : String) (v : Value) : St :=
  match getFrame st e with
  | some fr => setFrame st e { fr with values := alset name v fr.values }
  | none => st

/-- `Environment.ancestor` (`environment.ts` lines 275-282): follow the
`enclosing` reference `distance` times.  `none` models the JavaScript
`TypeError` crash that walking past the end of the chain (through the
`as Environment` cast of `null`) would produce. -/
def ancestor (st : St) : Nat → Nat → Option Nat
  | e, 0 => some e
  | e, d + 1 =>
    match getFrame st e with
    | none => none
    | some fr =>
      match fr.enclosing with
      | some e' => ancestor st e' d
      | none => none

/-- `Environment.getAt` (`environment.ts` lines 267-269): read the map of
the frame exactly `distance` ancestors up, with no existence check — a
missing name yields JavaScript `undefined` (`Value.undef`) through the
`as Value` cast.  The outer `Option` is `none` only when the ancestor
walk itself crashes. -/
def getAt (st : St) (e : Nat) (d : Nat) (name : String) : Option Value :=
  match ancestor st e d with
  | none => none
  | some a =>
    match getFrame st a with
    | none => none
    | some fr => some ((alget name fr.values).getD .undef)

/-- `Environment.assignAt` (`environment.ts` lines 271-273): `Map.set` on
the frame `distance` ancestors up (defining the name there if absent). -/
def assignAt (st : St) (e : Nat) (d : Nat) (name : String) (v : Value) :
    Option St :=
  match ancestor st e d with
  | none => none
  | some a =>
    match getFrame st a with
    | none => none
    | some fr => some (setFrame st a { fr with values := alset name v fr.values })

/-- `Environment.get` (`environment.ts` lines 244-253): search this frame
(a stored `undefined` counts as absent, because the source tests
`value !== undefined`), then the enclosing chain; raise
`Undefined variable 'x'.` at the end of the chain.  The fuel bounds the
chain walk; exhausting it models an infinite loop on a (never actually
constructed) cyclic chain. -/
def envGet : Nat → St → Nat → Tok → Outcome Value
  | 0, _, _, _ => .diverge
  | fuel + 1, st, e, name =>
    match getFrame st e with
    | none => .crash
    | some fr =>
      let next : Outcome Value :=
        match fr.enclosing with
        | some e' => envGet fuel st e' name
        | none =>
            .err ⟨name, "Undefined variable '" ++ name.lexeme ++ "'."⟩
      match alget name.lexeme fr.values with
      | some v => if v.isUndefB then next else .ok v
      | none => next

/-- `Environment.assign` (`environment.ts` lines 255-265): assign in the
first frame of the chain whose map has the key (`Map.has`, so a stored
`undefined` counts as present), else raise `Undefined variable 'x'.`. -/
def envAssign : Nat → St → Nat → Tok → Value → Outcome Unit × St
  | 0, st, _, _, _ => (.diverge, st)
  | fuel + 1, st, e, name, v =>
    match getFrame st e with
    | none => (.crash, st)
    | some fr =>
      match alget name.lexeme fr.values with
      | some _ =>
          (.ok (), setFrame st e { fr with values := alset name.lexeme v fr.values })
      | none =>
        match fr.enclosing with
        | some e' => envAssign fuel st e' name v
        | none =>
            (.err ⟨name, "Undefined variable '" ++ name.lexeme ++ "'."⟩, st)

/-- A resolver scope (`resolver.ts`, `type Scope = Map<string, boolean>`):
`false` means declared but not yet defined. -/
def Scope : Type := List (String × Bool)

/-- `FunctionType` (`resolver.ts`). -/
inductive FunctionType where
  | none | function | method | initializer
deriving DecidableEq, Repr

/-- `ClassType` (`resolver.ts`). -/
inductive ClassType where
  | none | cls | subclass
deriving DecidableEq, Repr

/-- Resolver state (`resolver.ts`, fields of `class Resolver`, plus the
interpreter's side-table `locals` it writes through
`Interpreter.resolve` and the error sink).  The scope stack is kept
innermost-first: the source's array grows at the end and is read from the
end, so the source's index `i` corresponds to index
`scopes.length - 1 - i` here.  `table` is the side-table as a partial
function from expression identity to depth (`Map.set` overwrites). -/
structure RState where
  scopes : List Scope
  currentFunction : FunctionType
  currentClass : ClassType
  table : Nat → Option Nat
  errors : List String

/-- The fresh resolver state (new `Resolver` over a new `Interpreter`). -/
def freshR : RState :=
  { scopes := [], currentFunction := .none, currentClass := .none,
    table := fun _ => none, errors := [] }

/-- `Map.set` on the side-table (`Interpreter.resolve`,
`interpreter.ts` lines 312-314). -/
def tset (k v : Nat) (t : Nat → Option Nat) : Nat → Option Nat :=
  fun k' => if k' = k then some v else t k'

/-- `Resolver.beginScope`. -/
def beginScope (rs : RState) : RState :=
  { rs with scopes := ([] : Scope) :: rs.scopes }

/-- `Resolver.endScope`. -/
def endScope (rs : RState) : RState :=
  { rs with scopes := rs.scopes.tail }

/-- Report a compile error to the sink (`run.ts`, `error`); only the fact
that a message was emitted matters to the theorems below. -/
def remit (msg : String) (rs : RState) : RState :=
  { rs with errors := rs.errors ++ [msg] }

/-- `Resolver.declare`: skip at global scope; error on redeclaration in
the innermost scope; map the name to `false`. -/
def rdeclare (name : Tok) (rs : RState) : RState :=
  match rs.scopes with
  | [] => rs
  | sc :: rest =>
    let rs' :=
      if (alget name.lexeme sc).isSome then
        remit "Already a variable with this name in this scope." rs
      else rs
    { rs' with scopes := alset name.lexeme false sc :: rest }

/-- `Resolver.define`: map the name to `true` in the innermost scope. -/
def rdefine (name : Tok) (rs : RState) : RState :=
  match rs.scopes with
  | [] => rs
  | sc :: rest => { rs with scopes := alset name.lexeme true sc :: rest }

/-- Search the scope stack innermost-outward; the returned depth is the
number of scopes between the use and the binding
(`Resolver.resolveLocal`'s loop: the first hit at source index `i` yields
`scopes.length - 1 - i`, which is the position from the innermost end). -/
def resolveLocalAux (name : String) : List Scope → Nat → Option Nat
  | [], _ => Option.none
  | sc :: rest, d =>
      if (alget name sc).isSome then some d
      else resolveLocalAux name rest (d + 1)

/-- `Resolver.resolveLocal` (`resolver.ts` lines 254-261): on the first
scope containing the name, record the depth in the interpreter's
side-table; on no hit, write nothing. -/
def resolveLocal (id : Nat) (name : Tok) (rs : RState) : RState :=
  match resolveLocalAux name.lexeme rs.scopes 0 with
  | some d => { rs with table := tset id d rs.table }
  | none => rs

/-- `currScope().set(name, flag)` on the innermost scope. -/
def rsetTop (name : String) (b : Bool) (rs : RState) : RState :=
  match rs.scopes with
  | [] => rs
  | sc :: rest => { rs with scopes := alset name b sc :: rest }

/-- Body of `resolveExpr`'s `variable` case (`resolver.ts` lines
237-246): report a use of a variable inside its own initializer, then
`resolveLocal`.  Shared with class declarations, whose superclass is a
`Variable` node resolved through the same code path. -/
def resolveVariableNode (id : Nat) (name : Tok) (rs : RState) : RState :=
  let rs' :=
    match rs.scopes with
    | [] => rs
    | sc :: _ =>
      if alget name.lexeme sc = some false then
        remit "Can't read local variable in its own initializer." rs
      else rs
  resolveLocal id name rs'

mutual

/-- `Resolver.resolveStmt` (`resolver.ts` lines 21-124). -/
def resolveStmt : Stmt → RState → RState
  | .block ss, rs => endScope (resolveStmts ss (beginScope rs))
  | .classDecl name sup methods, rs =>
    let enclosingClass := rs.currentClass
    let rs₁ := { rs with currentClass := .cls }
    let rs₂ := rdefine name (rdeclare name rs₁)
    let rs₃ :=
      match sup with
      | some (_, stok) =>
        if name.lexeme = stok.lexeme then
          remit "A class can't inherit from itself." rs₂
        else rs₂
      | none => rs₂
    let rs₄ :=
      match sup with
      | some (sid, stok) =>
          resolveVariableNode sid stok { rs₃ with currentClass := .subclass }
      | none => rs₃
    let rs₅ :=
      match sup with
      | some _ => rsetTop "super" true (beginScope rs₄)
      | none => rs₄
    let rs₆ := rsetTop "this" true (beginScope rs₅)
    let rs₇ := resolveMethods methods rs₆
    let rs₈ := endScope rs₇
    let rs₉ :=
      match sup with
      | some _ => endScope rs₈
      | none => rs₈
    { rs₉ with currentClass := enclosingClass }
  | .expression e, rs => resolveExpr e rs
  | .funDecl f, rs =>
      resolveFunction f .function (rdefine f.name (rdeclare f.name rs))
  | .ifS c t e, rs =>
    let rs₁ := resolveStmt t (resolveExpr c rs)
    match e with
    | some eb => resolveStmt eb rs₁
    | none => rs₁
  | .print e, rs => resolveExpr e rs
  | .ret _ value, rs =>
    let rs₁ :=
      if rs.currentFunction = .none then
        remit "Can't return from top-level code." rs
      else rs
    match value with
    | some v =>
      let rs₂ :=
        if rs₁.currentFunction = .initializer then
          remit "Can't return a value from an initializer." rs₁
        else rs₁
      resolveExpr v rs₂
    | none => rs₁
  | .varDecl name init, rs =>
    let rs₁ := rdeclare name rs
    let rs₂ :=
      match init with
      | some e => resolveExpr e rs₁
      | none => rs₁
    rdefine name rs₂
  | .whileS c b, rs => resolveStmt b (resolveExpr c rs)
termination_by s _ => sizeOf s

/-- `Resolver.resolveStmts`. -/
def resolveStmts : List Stmt → RState → RState
  | [], rs => rs
  | s :: rest, rs => resolveStmts rest (resolveStmt s rs)
termination_by ss _ => sizeOf ss

/-- The method-resolution loop of the `class` case (`resolver.ts` lines
55-61): each method resolves as `method`, or `initializer` when its name
is `init`. -/
def resolveMethods : List FunDecl → RState → RState
  | [], rs => rs
  | m :: rest, rs =>
    let declaration : FunctionType :=
      if m.name.lexeme = "init" then .initializer else .method
    resolveMethods rest (resolveFunction m declaration rs)
termination_by ms _ => sizeOf ms

/-- `Resolver.resolveFunction` (`resolver.ts` lines 126-139). -/
def resolveFunction : FunDecl → FunctionType → RState → RState
  | .mk _ ps bd, ty, rs =>
    let enclosingFunction := rs.currentFunction
    let rs₁ := beginScope { rs with currentFunction := ty }
    let rs₂ := ps.foldl (fun acc p => rdefine p (rdeclare p acc)) rs₁
    let rs₃ := resolveStmts bd rs₂
    { endScope rs₃ with currentFunction := enclosingFunction }
termination_by f _ _ => sizeOf f

/-- `Resolver.resolveExpr` (`resolver.ts` lines 173-252). -/
def resolveExpr : Expr → RState → RState
  | .assignment id name value, rs => resolveLocal id name (resolveExpr value rs)
  | .binary l _ _ r, rs => resolveExpr r (resolveExpr l rs)
  | .call callee _ args, rs => resolveExprs args (resolveExpr callee rs)
  | .get o _, rs => resolveExpr o rs
  | .grouping e, rs => resolveExpr e rs
  | .literal _, rs => rs
  | .logical l _ r, rs => resolveExpr r (resolveExpr l rs)
  | .set o _ v, rs => resolveExpr o (resolveExpr v rs)
  | .superE id kw _, rs =>
    let rs₁ :=
      if rs.currentClass = .none then
        remit "Can't use 'super' outside of a class." rs
      else if rs.currentClass ≠ .subclass then
        remit "Can't use 'super' in a class with no superclass." rs
      else rs
    resolveLocal id kw rs₁
  | .thisE id kw, rs =>
    if rs.currentClass = .none then
      remit "Can't use 'this' outside of a class." rs
    else resolveLocal id kw rs
  | .unary _ _ r, rs => resolveExpr r rs
  | .varE id name, rs => resolveVariableNode id name rs
termination_by e _ => sizeOf e

/-- The argument-resolution loop of the `call` case. -/
def resolveExprs : List Expr → RState → RState
  | [], rs => rs
  | e :: rest, rs => resolveExprs rest (resolveExpr e rs)
termination_by es _ => sizeOf es

end

/-- Number-to-string conversion for `print` (host `Number.toString`):
integers print without a fractional part.  The exact host formatting of
non-integer doubles is approximated by the rational's representation; no
theorem depends on printed text. -/
def stringifyNum : LoxNum → String
  | .nan => "NaN"
  | .fin q _ => if q.den = 1 then toString q.num else toString q

/-- `stringify` (`interpreter.ts` lines 536-544): `nil`, the `-0` special
case via `Object.is`, then the value's `toString`.  `none` models the
`TypeError` of calling `toString` on the JavaScript `undefined` value or
of printing an instance reference that is not in the heap. -/
def stringifyV (st : St) : Value → Option String
  | .nil => some "nil"
  | .num (.fin 0 true) => some "-0"
  | .undef => none
  | .bool b => some (if b then "true" else "false")
  | .num n => some (stringifyNum n)
  | .str s => some s
  | .fn f => some ("<fn " ++ f.decl.name.lexeme ++ ">")
  | .klass k => some k.name
  | .inst i =>
    match st.instances.get? i with
    | some idata => some (idata.klass.name ++ " instance")
    | none => none
  | .clockFn => some "<native fn>"

/-- `isCallable` (`interpreter.ts` lines 24-26): only function objects,
classes and the `clock` built-in have a `call` member; instances,
primitives, `null` and `undefined` do not. -/
def isCallable : Value → Bool
  | .fn _ => true
  | .klass _ => true
  | .clockFn => true
  | _ => false

/-- `LoxClass.arity` (`interpreter.ts` lines 113-119): the initializer's
arity, or 0 without one. -/
def LoxClass.arity (k : LoxClass) : Nat :=
  match k.findMethod "init" with
  | none => 0
  | some f => f.decl.params.length

/-- `Callable.arity` dispatch at a call site. The non-callable branch is
unreachable (guarded by `isCallable`). -/
def callArity : Value → Nat
  | .fn f => f.decl.params.length
  | .klass k => k.arity
  | _ => 0

/-- `LoxFunction.bind` (`interpreter.ts` lines 77-81): allocate a child
environment of the closure defining `this`, and return a fresh
`LoxFunction` (new object, hence new uid) over it. -/
def bindFn (st : St) (f : LoxFun) (v : Value) : LoxFun × St :=
  let envId := st.frames.length
  let st₁ := { st with
      frames := st.frames ++ [⟨some f.closure, [("this", v)]⟩],
      nextUid := st.nextUid + 1 }
  (⟨st.nextUid, f.decl, envId, f.isInitializer⟩, st₁)

/-- `LoxInstance.get` (`interpreter.ts` lines 147-159): the instance's
own fields first (a stored `undefined` counts as absent, because the
source tests `value !== undefined`), then the class's method table via
`findMethod` — binding the method to the instance — and otherwise a
runtime error. -/
def instGet (st : St) (i : Nat) (name : Tok) : Outcome Value × St :=
  match st.instances.get? i with
  | none => (.crash, st)
  | some idata =>
    let tryMethod : Outcome Value × St :=
      match idata.klass.findMethod name.lexeme with
      | some m =>
        let (bm, st') := bindFn st m (.inst i)
        (.ok (.fn bm), st')
      | none =>
          (.err ⟨name, "Undefined property '" ++ name.lexeme ++ "'."⟩, st)
    match alget name.lexeme idata.fields with
    | some v => if v.isUndefB then tryMethod else (.ok v, st)
    | none => tryMethod

/-- `LoxInstance.set` (`interpreter.ts` lines 161-163). -/
def instSet (st : St) (i : Nat) (name : Tok) (v : Value) : St :=
  match st.instances.get? i with
  | none => st
  | some idata =>
    { st with instances :=
        st.instances.set i { idata with fields := alset name.lexeme v idata.fields } }

/-- `Interpreter.lookUpVariable` (`interpreter.ts` lines 527-533): with a
resolved depth use `getAt` on the current environment, otherwise
`get` on the globals (frame 0). -/
def lookUpVariable (st : St) (name : Tok) (id : Nat) : Outcome Value :=
  match alget id st.locals with
  | some d =>
    match getAt st st.environment d name.lexeme with
    | some v => .ok v
    | none => .crash
  | none => envGet (st.frames.length + 1) st 0 name

/-- The operator dispatch of `Interpreter.evaluateBinary`
(`interpreter.ts` lines 370-424), applied after both operands have been
evaluated left-then-right.  The `==`/`!=` branches return unconditionally
and can raise no error. -/
def binOpEval (op : BinOp) (opTok : Tok) (l r : Value) : Outcome Value :=
  match op with
  | .minus =>
    match l, r with
    | .num a, .num b => .ok (.num (jsSubNum a b))
    | _, _ => .err ⟨opTok, "Operands must be numbers."⟩
  | .plus =>
    match l, r with
    | .num a, .num b => .ok (.num (jsAddNum a b))
    | .str a, .str b => .ok (.str (a ++ b))
    | _, _ => .err ⟨opTok, "Operands must be two numbers or two strings."⟩
  | .slash =>
    match l, r with
    | .num a, .num b => .ok (.num (jsDivNum a b))
    | _, _ => .err ⟨opTok, "Operands must be numbers."⟩
  | .star =>
    match l, r with
    | .num a, .num b => .ok (.num (jsMulNum a b))
    | _, _ => .err ⟨opTok, "Operands must be numbers."⟩
  | .greater =>
    match l, r with
    | .num a, .num b => .ok (.bool (jsLtNum b a))
    | _, _ => .err ⟨opTok, "Operands must be numbers."⟩
  | .greater_equal =>
    match l, r with
    | .num a, .num b => .ok (.bool (jsLeNum b a))
    | _, _ => .err ⟨opTok, "Operands must be numbers."⟩
  | .less =>
    match l, r with
    | .num a, .num b => .ok (.bool (jsLtNum a b))
    | _, _ => .err ⟨opTok, "Operands must be numbers."⟩
  | .less_equal =>
    match l, r with
    | .num a, .num b => .ok (.bool (jsLeNum a b))
    | _, _ => .err ⟨opTok, "Operands must be numbers."⟩
  | .bang_equal => .ok (.bool (!isEqual l r))
  | .equal_equal => .ok (.bool (isEqual l r))

/-- Exception-propagating sequencing: run the continuation on a normal
result, propagate `Return`, runtime errors, crashes and divergence
(modelling JavaScript exception propagation). -/
def obind {α β : Type} : Outcome α × St → (α → St → Outcome β × St) → Outcome β × St
  | (.ok a, st), k => k a st
  | (.ret v, st), _ => (.ret v, st)
  | (.err e, st), _ => (.err e, st)
  | (.crash, st), _ => (.crash, st)
  | (.diverge, st), _ => (.diverge, st)

/-- The parameter-binding loop of `LoxFunction.call` (`interpreter.ts`
lines 55-57): define each parameter to the corresponding argument
(JavaScript indexing out of range yields `undefined`; unreachable behind
the arity check). -/
def defineParams (params : List Tok) (args : List Value) (envId : Nat) (st : St) : St :=
  match params, args with
  | [], _ => st
  | p :: ps, [] => defineParams ps [] envId (envDefine st envId p.lexeme .undef)
  | p :: ps, a :: rest => defineParams ps rest envId (envDefine st envId p.lexeme a)

/-- The initializer result of `LoxFunction.call`:
`this.closure.getAt(0, "this")`. -/
def initThis (f : LoxFun) (st : St) : Outcome Value × St :=
  match getAt st f.closure 0 "this" with
  | some v => (.ok v, st)
  | none => (.crash, st)

/-- The tail of `LoxClass.call` (`interpreter.ts` lines 124-127): the
initializer's result is discarded and the new instance is returned when
the initializer call completed normally; anything thrown propagates. -/
def finishConstruct (instId : Nat) : Outcome Value × St → Outcome Value × St
  | (.ok _, st₃) => (.ok (.inst instId), st₃)
  | (.ret v, st₃) => (.ret v, st₃)
  | (.err e, st₃) => (.err e, st₃)
  | (.crash, st₃) => (.crash, st₃)
  | (.diverge, st₃) => (.diverge, st₃)

/-- The tail of `LoxFunction.call` (`interpreter.ts` lines 59-74): catch
a `Return` signal from the body and turn the body's outcome into the
call's result — an initializer answers `this` from its closure on a
caught `Return` (whatever value it carried) and on normal completion; a
plain function answers the `Return` payload or `nil`; everything else
propagates. -/
def finishCallResult (f : LoxFun) : Outcome Unit × St → Outcome Value × St
  | (.ret v, st₃) => if f.isInitializer then initThis f st₃ else (.ok v, st₃)
  | (.ok _, st₃) => if f.isInitializer then initThis f st₃ else (.ok .nil, st₃)
  | (.err e, st₃) => (.err e, st₃)
  | (.crash, st₃) => (.crash, st₃)
  | (.diverge, st₃) => (.diverge, st₃)

/-- The method-table construction loop of the `class` case of
`Interpreter.execute` (`interpreter.ts` lines 243-251): each method
becomes a `LoxFunction` closing over the current environment, an
initializer exactly when its name is `init`. -/
def buildMethods (methods : List FunDecl) (st : St) : List (String × LoxFun) × St :=
  methods.foldl
    (fun acc m =>
      let fn : LoxFun := ⟨acc.2.nextUid, m, acc.2.environment, m.name.lexeme == "init"⟩
      (alset m.name.lexeme fn acc.1, { acc.2 with nextUid := acc.2.nextUid + 1 }))
    ([], st)

/-- Popping the `super` frame after building a class (`interpreter.ts`
lines 255-257): `this.environment = this.environment.enclosing as
Environment`.  `none` models the crash of the cast failing. -/
def popSuper (supK : Option LoxClass) (st : St) : Option St :=
  match supK with
  | none => some st
  | some _ =>
    match getFrame st st.environment with
    | none => none
    | some fr =>
      match fr.enclosing with
      | some e => some { st with environment := e }
      | none => none

mutual

/-- `Interpreter.execute` (`interpreter.ts` lines 218-310).  The first
argument is fuel: each recursive step consumes one unit, and exhaustion
(`Outcome.diverge`) models nontermination. -/
def exec : Nat → Stmt → St → Outcome Unit × St
  | 0, _, st => (.diverge, st)
  | n + 1, .block ss, st =>
    let envId := st.frames.length
    let st₁ := { st with frames := st.frames ++ [⟨some st.environment, []⟩] }
    executeBlock n ss envId st₁
  | n + 1, .classDecl name sup methods, st =>
    let afterSuper : Outcome (Option LoxClass) × St :=
      match sup with
      | some (sid, stok) =>
        obind (eval n (.varE sid stok) st) fun sv st₁ =>
          match sv with
          | .klass sk => (.ok (some sk), st₁)
          | _ => (.err ⟨stok, "Superclass must be a class."⟩, st₁)
      | none => (.ok none, st)
    obind afterSuper fun supK st₁ =>
      let st₂ := envDefine st₁ st₁.environment name.lexeme .nil
      let st₃ :=
        match supK with
        | some sk =>
          { st₂ with
              frames := st₂.frames ++ [⟨some st₂.environment, [("super", .klass sk)]⟩],
              environment := st₂.frames.length }
        | none => st₂
      let (ms, st₄) := buildMethods methods st₃
      let klass : LoxClass := .mk st₄.nextUid name.lexeme supK ms
      let st₅ := { st₄ with nextUid := st₄.nextUid + 1 }
      match popSuper supK st₅ with
      | none => (.crash, st₅)
      | some st₆ =>
          obind (envAssign (st₆.frames.length + 1) st₆ st₆.environment name (.klass klass))
            fun _ st₇ => (.ok (), st₇)
  | n + 1, .expression e, st =>
    obind (eval n e st) fun _ st₁ => (.ok (), st₁)
  | _ + 1, .funDecl f, st =>
    let fn : LoxFun := ⟨st.nextUid, f, st.environment, false⟩
    let st₁ := { st with nextUid := st.nextUid + 1 }
    (.ok (), envDefine st₁ st₁.environment f.name.lexeme (.fn fn))
  | n + 1, .ifS c t e, st =>
    obind (eval n c st) fun v st₁ =>
      if isTruthy v then exec n t st₁
      else
        match e with
        | some eb => exec n eb st₁
        | none => (.ok (), st₁)
  | n + 1, .print e, st =>
    obind (eval n e st) fun v st₁ =>
      match stringifyV st₁ v with
      | some s => (.ok (), { st₁ with output := st₁.output ++ [s] })
      | none => (.crash, st₁)
  | n + 1, .ret _ value, st =>
    match value with
    | none => (.ret .nil, st)
    | some e => obind (eval n e st) fun v st₁ => (.ret v, st₁)
  | n + 1, .varDecl name init, st =>
    match init with
    | none => (.ok (), envDefine st st.environment name.lexeme .nil)
    | some e =>
        obind (eval n e st) fun v st₁ =>
          (.ok (), envDefine st₁ st₁.environment name.lexeme v)
  | n + 1, .whileS c b, st =>
    obind (eval n c st) fun v st₁ =>
      if isTruthy v then
        obind (exec n b st₁) fun _ st₂ => exec n (.whileS c b) st₂
      else (.ok (), st₁)

/-- `Interpreter.executeBlock` (`interpreter.ts` lines 316-326): save the
current environment, switch to the block's environment, execute, and
restore the saved environment in the `finally` — on normal completion and
when a `Return`, a `RuntimeError` or a host exception propagates out.
Only on divergence (fuel exhaustion: the block never exits) is there no
restore. -/
def executeBlock : Nat → List Stmt → Nat → St → Outcome Unit × St
  | 0, _, _, st => (.diverge, st)
  | n + 1, statements, environment, st =>
    let previous := st.environment
    match execList n statements { st with environment := environment } with
    | (.diverge, st₁) => (.diverge, st₁)
    | (o, st₁) => (o, { st₁ with environment := previous })

/-- The statement loop shared by `interpret` and `executeBlock`. -/
def execList : Nat → List Stmt → St → Outcome Unit × St
  | 0, _, st => (.diverge, st)
  | _ + 1, [], st => (.ok (), st)
  | n + 1, s :: rest, st =>
    obind (exec n s st) fun _ st₁ => execList n rest st₁

/-- `Interpreter.evaluate` (`interpreter.ts` lines 328-533), the
expression dispatcher and its per-variant helpers. -/
def eval : Nat → Expr → St → Outcome Value × St
  | 0, _, st => (.diverge, st)
  | n + 1, .assignment id name value, st =>
    obind (eval n value st) fun v st₁ =>
      match alget id st₁.locals with
      | some d =>
        match assignAt st₁ st₁.environment d name.lexeme v with
        | some st₂ => (.ok v, st₂)
        | none => (.crash, st₁)
      | none =>
          obind (envAssign (st₁.frames.length + 1) st₁ 0 name v) fun _ st₂ =>
            (.ok v, st₂)
  | n + 1, .binary l op opTok r, st =>
    obind (eval n l st) fun a st₁ =>
      obind (eval n r st₁) fun b st₂ =>
        (binOpEval op opTok a b, st₂)
  | n + 1, .call callee paren args, st =>
    obind (eval n callee st) fun c st₁ =>
      obind (evalList n args st₁) fun vs st₂ =>
        if !isCallable c then
          (.err ⟨paren, "Can only call functions and classes."⟩, st₂)
        else if vs.length ≠ callArity c then
          (.err ⟨paren, "Expected " ++ toString (callArity c) ++
              " arguments but got " ++ toString vs.length ++ "."⟩, st₂)
        else
          match c with
          | .fn f => funCall n f vs st₂
          | .klass k => classCall n k vs st₂
          | .clockFn => (.ok (.num (.fin st₂.clockMs false)), st₂)
          | _ => (.crash, st₂)
  | n + 1, .get o name, st =>
    obind (eval n o st) fun v st₁ =>
      match v with
      | .inst i => instGet st₁ i name
      | _ => (.err ⟨name, "Only instances have properties."⟩, st₁)
  | n + 1, .grouping e, st => eval n e st
  | _ + 1, .literal l, st => (.ok (litToValue l), st)
  | n + 1, .logical l op r, st =>
    obind (eval n l st) fun a st₁ =>
      match op with
      | .orOp => if isTruthy a then (.ok a, st₁) else eval n r st₁
      | .andOp => if !isTruthy a then (.ok a, st₁) else eval n r st₁
  | n + 1, .set o name v, st =>
    obind (eval n o st) fun ov st₁ =>
      match ov with
      | .inst i =>
          obind (eval n v st₁) fun w st₂ => (.ok w, instSet st₂ i name w)
      | _ => (.err ⟨name, "Only instances have fields."⟩, st₁)
  | _ + 1, .superE id _ method, st =>
    match alget id st.locals with
    | none => (.crash, st)
    | some d =>
      match getAt st st.environment d "super" with
      | none => (.crash, st)
      | some sv =>
        match sv with
        | .klass sk =>
          match getAt st st.environment (d - 1) "this" with
          | none => (.crash, st)
          | some tv =>
            match sk.findMethod method.lexeme with
            | none =>
                (.err ⟨method, "Undefined property '" ++ method.lexeme ++ "'."⟩, st)
            | some m =>
              let (bm, st₁) := bindFn st m tv
              (.ok (.fn bm), st₁)
        | _ => (.crash, st)
  | _ + 1, .thisE id kw, st => (lookUpVariable st kw id, st)
  | n + 1, .unary op opTok r, st =>
    obind (eval n r st) fun v st₁ =>
      match op with
      | .minus =>
        match v with
        | .num x => (.ok (.num (jsNegNum x)), st₁)
        | _ => (.err ⟨opTok, "Operand must be a number."⟩, st₁)
      | .bang => (.ok (.bool (!isTruthy v)), st₁)
  | _ + 1, .varE id name, st => (lookUpVariable st name id, st)

/-- The argument-evaluation loop of `Interpreter.evaluateCall`
(left-to-right). -/
def evalList : Nat → List Expr → St → Outcome (List Value) × St
  | 0, _, st => (.diverge, st)
  | _ + 1, [], st => (.ok [], st)
  | n + 1, e :: rest, st =>
    obind (eval n e st) fun v st₁ =>
      obind (evalList n rest st₁) fun vs st₂ => (.ok (v :: vs), st₂)

/-- `LoxFunction.call` (`interpreter.ts` lines 53-75): bind parameters in
a child environment of the closure, execute the body, catch the `Return`
signal; an initializer answers `this` from its closure both on a caught
`Return` (whatever value it carried) and on normal completion; a plain
function answers the `Return` payload or `nil`. -/
def funCall : Nat → LoxFun → List Value → St → Outcome Value × St
  | 0, _, _, st => (.diverge, st)
  | n + 1, f, args, st =>
    let envId := st.frames.length
    let st₁ := { st with frames := st.frames ++ [⟨some f.closure, []⟩] }
    let st₂ := defineParams f.decl.params args envId st₁
    finishCallResult f (executeBlock n f.decl.body envId st₂)

/-- `LoxClass.call` (`interpreter.ts` lines 121-128): create the
instance, call the bound initializer when one exists (discarding its
result), and answer the instance. -/
def classCall : Nat → LoxClass → List Value → St → Outcome Value × St
  | 0, _, _, st => (.diverge, st)
  | n + 1, k, args, st =>
    let instId := st.instances.length
    let st₁ := { st with instances := st.instances ++ [⟨k, []⟩] }
    match k.findMethod "init" with
    | none => (.ok (.inst instId), st₁)
    | some init =>
      let (bm, st₂) := bindFn st₁ init (.inst instId)
      finishConstruct instId (funCall n bm args st₂)

end

/-- The desugaring core of `Parser.forStatement` (`parser.ts` lines
208-234), applied to the parsed clauses: append the increment to the body
in a wrapping block when present, default a missing condition to the
literal `true`, build the `While`, and wrap initializer and loop in an
outer block when an initializer is present.  The parser returns this
statement directly — the `Stmt` type has no `for` variant. -/
def forDesugar (initializer : Option Stmt) (condition : Option Expr)
    (increment : Option Expr) (body : Stmt) : Stmt :=
  let body₁ :=
    match increment with
    | some inc => Stmt.block [body, .expression inc]
    | none => body
  let cond :=
    match condition with
    | some c => c
    | none => Expr.literal (.bool true)
  let body₂ := Stmt.whileS cond body₁
  match initializer with
  | some i => Stmt.block [i, body₂]
  | none => body₂

/-- The `for` translation as the specification words it: "a `While`
optionally wrapped in a `Block` for the initializer and optionally with
an `increment` appended to the body block.  A missing condition becomes
`literal(true)`." -/
def forDesugarSpec (initializer : Option Stmt) (condition : Option Expr)
    (increment : Option Expr) (body : Stmt) : Stmt :=
  let loop := Stmt.whileS
    (condition.getD (Expr.literal (.bool true)))
    (match increment with
     | some inc => Stmt.block [body, .expression inc]
     | none => body)
  match initializer with
  | some i => Stmt.block [i, loop]
  | none => loop

/-- Result of `Scanner.string` (`resolver.ts` file, lines 423-443 of the
concatenated source): either an error report (line and message, with no
token added), or the string token's literal text together with the
scanner's line and the remaining input. -/
inductive StrScanResult where
  | err (line : Nat) (msg : String) : StrScanResult
  | tok (literal : List Char) (line : Nat) (rest : List Char) : StrScanResult
deriving DecidableEq, Repr

/-- The double-quote character. -/
def qChar : Char := Char.ofNat 34

/-- The newline character. -/
def nlChar : Char := Char.ofNat 10

/-- `Scanner.string`: entered just after the opening quote was consumed,
with the scanner's line counter at the opening quote's line (consuming a
quote never advances the line).  Advance until a closing quote or end of
input, incrementing the line at each newline; at end of input report
`Unterminated string.` at the line counter's CURRENT value and add no
token; otherwise consume the closing quote and yield the literal between
the quotes. -/
def scanString : List Char → Nat → StrScanResult
  | [], line => .err line "Unterminated string."
  | c :: rest, line =>
    if c = qChar then .tok [] line rest
    else
      match scanString rest (if c = nlChar then line + 1 else line) with
      | .err l m => .err l m
      | .tok lit l r => .tok (c :: lit) l r

example :
    scanString [Char.ofNat 97, nlChar, Char.ofNat 98] 1 =
      .err 2 "Unterminated string." := by decide

example :
    scanString [Char.ofNat 97, qChar, Char.ofNat 98] 1 =
      .tok [Char.ofNat 97] 1 [Char.ofNat 98] := by decide

/-- Claim C6: every `for` statement is desugared entirely at parse time —
the parser emits no For node (the `Stmt` type has none): the result is a
`While` whose body has the increment appended in a wrapping `Block` when
an increment is present, the whole wrapped in an outer `Block` containing
the initializer when an initializer is present, and a missing condition
becomes the literal `true`. -/
theorem for_desugars_to_while (initializer : Option Stmt)
    (condition : Option Expr) (increment : Option Expr) (body : Stmt) :
    forDesugar initializer condition increment body =
      forDesugarSpec initializer condition increment body := by
  cases initializer <;> cases condition <;> cases increment <;> rfl

/-- Claim C7, counterexample: for the unterminated string whose opening
quote is on line 1 and whose text contains one newline before end of
input, the scanner reports `Unterminated string.` at line 2, not at the
opening line 1 as the claim demands. -/
theorem scan_string_error_line_counterexample :
    scanString [Char.ofNat 97, nlChar, Char.ofNat 98] 1 =
      .err 2 "Unterminated string." ∧ 2 ≠ 1 :=
  ⟨by decide, by decide⟩

/-- Claim C7 as amended: for every unterminated string (no closing quote
before end of input), the scanner reports `Unterminated string.` at the
line reached at end of input — the opening quote's line plus the number
of newlines in the unterminated text — and no string token is added
(the error result carries no token). -/
theorem scan_string_unterminated_reports_final_line (cs : List Char)
    (line : Nat) (h : qChar ∉ cs) :
    scanString cs line = .err (line + cs.count nlChar) "Unterminated string." := by
  induction cs generalizing line with
  | nil => simp [scanString]
  | cons c rest ih =>
    simp only [List.mem_cons, not_or] at h
    have hc : ¬(c = qChar) := fun hq => h.1 hq.symm
    by_cases hnl : c = nlChar
    · subst hnl
      simp [scanString, hc, ih _ h.2, List.count_cons]
      omega
    · simp [scanString, hc, hnl, ih _ h.2, List.count_cons]

/-- Witness for the amended C7 theorem at a concrete unterminated
input. -/
theorem scan_string_unterminated_reports_final_line_witness :
    scanString [Char.ofNat 97, nlChar, Char.ofNat 98] 1 =
      .err (1 + List.count nlChar [Char.ofNat 97, nlChar, Char.ofNat 98])
        "Unterminated string." :=
  scan_string_unterminated_reports_final_line
    [Char.ofNat 97, nlChar, Char.ofNat 98] 1 (by decide)

/-- A minimal interpreter state: empty globals frame only. -/
def stEmptyGlobals : St :=
  { frames := [⟨none, []⟩], instances := [], environment := 0,
    locals := [], output := [], nextUid := 0, clockMs := 0 }

/-- Claim C2: the equality used by `==` and `!=`: `nil == nil` is true;
`nil` against any non-nil value is false either way; numbers compare by
IEEE equality (`NaN != NaN`, `-0 == 0`); strings and booleans compare
structurally; functions, classes and instances compare by object
identity; values of different tags are never equal; and the `==`/`!=`
branches of the binary-operator dispatch always answer a boolean and
never raise a runtime error. -/
theorem isEqual_spec :
    (isEqual .nil .nil = true)
  ∧ (∀ b : Value, b.isNilB = false →
      isEqual .nil b = false ∧ isEqual b .nil = false)
  ∧ (∀ x y : LoxNum, isEqual (.num x) (.num y) = jsEqNum x y)
  ∧ (jsEqNum .nan .nan = false)
  ∧ (jsEqNum (.fin 0 true) (.fin 0 false) = true)
  ∧ (∀ s t : String, isEqual (.str s) (.str t) = (s == t))
  ∧ (∀ a b : Bool, isEqual (.bool a) (.bool b) = (a == b))
  ∧ (∀ f g : LoxFun, isEqual (.fn f) (.fn g) = (f.uid == g.uid))
  ∧ (∀ k l : LoxClass, isEqual (.klass k) (.klass l) = (k.uid == l.uid))
  ∧ (∀ i j : Nat, isEqual (.inst i) (.inst j) = (i == j))
  ∧ (∀ a b : Value, a.isNilB = false → b.isNilB = false →
      a.tag ≠ b.tag → isEqual a b = false)
  ∧ (∀ (opTok : Tok) (a b : Value),
      binOpEval .equal_equal opTok a b = .ok (.bool (isEqual a b))
    ∧ binOpEval .bang_equal opTok a b = .ok (.bool (!isEqual a b))) := by
  refine ⟨rfl, ?_, ?_, rfl, by decide, ?_, ?_, ?_, ?_, ?_, ?_, ?_⟩
  · intro b hb
    constructor <;> cases b <;> simp_all [isEqual, Value.isNilB, jsStrictEq]
  · intro x y; simp [isEqual, Value.isNilB, jsStrictEq]
  · intro s t; simp [isEqual, Value.isNilB, jsStrictEq]
  · intro a b; simp [isEqual, Value.isNilB, jsStrictEq]
  · intro f g; simp [isEqual, Value.isNilB, jsStrictEq]
  · intro k l; simp [isEqual, Value.isNilB, jsStrictEq]
  · intro i j; simp [isEqual, Value.isNilB, jsStrictEq]
  · intro a b ha hb hne
    cases a <;> cases b <;>
      simp_all [isEqual, Value.isNilB, jsStrictEq, Value.tag]
  · intro opTok a b; exact ⟨rfl, rfl⟩

/-- Witness for C2: concrete applications of the hypothesis-bearing
conjuncts. -/
theorem isEqual_spec_witness :
    isEqual .nil (.bool true) = false ∧
    isEqual (.str "a") (.num (.fin 0 false)) = false := by
  refine ⟨(isEqual_spec.2.1 (.bool true) rfl).1, ?_⟩
  exact isEqual_spec.2.2.2.2.2.2.2.2.2.2.1
    (.str "a") (.num (.fin 0 false)) rfl rfl (by decide)

/-- Claim C5: `executeBlock` restores the interpreter's previous current
environment on every exit path — normal completion, a propagating
`Return` signal, a propagating `RuntimeError`, and even a propagating
host exception.  (The only excluded case is `diverge`: a block that never
terminates has no exit path.) -/
theorem executeBlock_restores_environment (n : Nat) (statements : List Stmt)
    (environment : Nat) (st : St) (o : Outcome Unit) (st' : St)
    (h : executeBlock n statements environment st = (o, st'))
    (hnd : o ≠ .diverge) :
    st'.environment = st.environment := by
  cases n with
  | zero =>
    simp only [executeBlock, Prod.mk.injEq] at h
    exact absurd h.1.symm hnd
  | succ n =>
    simp only [executeBlock] at h
    rcases hr : execList n statements { st with environment := environment }
      with ⟨o₁, st₁⟩
    rw [hr] at h
    cases o₁ <;> simp only [Prod.mk.injEq] at h <;>
      first
        | exact absurd h.1.symm hnd
        | (rw [← h.2])

/-- Witness for C5 at a concrete block execution. -/
theorem executeBlock_restores_environment_witness :
    (executeBlock 2 [] 5 stEmptyGlobals).2.environment =
      stEmptyGlobals.environment := by
  refine executeBlock_restores_environment 2 [] 5 stEmptyGlobals
    (executeBlock 2 [] 5 stEmptyGlobals).1
    (executeBlock 2 [] 5 stEmptyGlobals).2 rfl ?_
  intro hc
  have hok : (executeBlock 2 [] 5 stEmptyGlobals).1 = Outcome.ok () := rfl
  rw [hok] at hc
  exact Outcome.noConfusion hc

/-- Claim C10: evaluating `object.name = value` when the object
expression evaluates to a non-instance raises
`Only instances have fields.` with the state exactly as it was after
evaluating the object — the value subexpression is never evaluated, so
none of its side effects occur. -/
theorem set_error_precedes_value_eval (n : Nat) (o : Expr) (name : Tok)
    (vexpr : Expr) (st st₁ : St) (w : Value)
    (hobj : eval n o st = (.ok w, st₁)) (hni : w.isInstanceB = false) :
    eval (n + 1) (.set o name vexpr) st =
      (.err ⟨name, "Only instances have fields."⟩, st₁) := by
  simp only [eval, hobj, obind]
  cases w <;> simp_all [Value.isInstanceB]

/-- A globals frame holding a variable `g`, to exhibit that the `Set`
error branch runs before the (side-effecting) value expression. -/
def stWitGlobals : St :=
  { frames := [⟨none, [("g", .num (.fin 0 false))]⟩], instances := [],
    environment := 0, locals := [], output := [], nextUid := 0, clockMs := 0 }

/-- Witness for C10: the object is `nil` and the value expression is an
assignment to the global `g`; the result is the error with the state
unchanged — `g` keeps its old value. -/
theorem set_error_precedes_value_eval_witness :
    eval 2 (.set (.literal .nil) ⟨"f", 1⟩
        (.assignment 0 ⟨"g", 1⟩ (.literal (.num (.fin 1 false))))) stWitGlobals =
      (.err ⟨⟨"f", 1⟩, "Only instances have fields."⟩, stWitGlobals) :=
  set_error_precedes_value_eval 1 (.literal .nil) ⟨"f", 1⟩
    (.assignment 0 ⟨"g", 1⟩ (.literal (.num (.fin 1 false))))
    stWitGlobals stWitGlobals .nil rfl rfl

/-- Claim C9: `Environment.getAt` reads only the frame exactly `d`
ancestors up and performs no existence check: when the ancestor walk
succeeds, the result is exactly that single frame's map lookup; a name
absent from that frame yields the JavaScript `undefined` value treated as
a `Value` — never the `Undefined variable` error that `get` raises at the
end of its chain — and a name present at depth `d` is returned as
stored. -/
theorem getAt_no_existence_check :
    (∀ (st : St) (e d a : Nat) (name : String) (fr : Frame),
        ancestor st e d = some a →
        getFrame st a = some fr →
        getAt st e d name = some ((alget name fr.values).getD .undef))
  ∧ (∀ (st : St) (e d a : Nat) (name : String) (fr : Frame),
        ancestor st e d = some a →
        getFrame st a = some fr →
        alget name fr.values = none →
        getAt st e d name = some .undef)
  ∧ (∀ (st : St) (e d a : Nat) (name : String) (fr : Frame) (v : Value),
        ancestor st e d = some a →
        getFrame st a = some fr →
        alget name fr.values = some v →
        getAt st e d name = some v)
  ∧ (∀ (st : St) (e : Nat) (name : Tok) (fuel : Nat) (fr : Frame),
        getFrame st e = some fr →
        alget name.lexeme fr.values = none →
        fr.enclosing = none →
        envGet (fuel + 1) st e name =
          .err ⟨name, "Undefined variable '" ++ name.lexeme ++ "'."⟩) := by
  refine ⟨?_, ?_, ?_, ?_⟩
  · intro st e d a name fr ha hfr
    simp [getAt, ha, hfr]
  · intro st e d a name fr ha hfr hnone
    simp [getAt, ha, hfr, hnone]
  · intro st e d a name fr v ha hfr hsome
    simp [getAt, ha, hfr, hsome]
  · intro st e name fuel fr hfr hget hencl
    simp [envGet, hfr, hget, hencl]

/-- Witness for C9: in a one-frame heap with an empty globals map,
`getAt` at depth 0 answers `undefined` for a missing name while `get`
raises `Undefined variable 'x'.` on the same environment. -/
theorem getAt_no_existence_check_witness :
    getAt stEmptyGlobals 0 0 "x" = some .undef ∧
    envGet 1 stEmptyGlobals 0 ⟨"x", 1⟩ =
      .err ⟨⟨"x", 1⟩, "Undefined variable 'x'."⟩ :=
  ⟨getAt_no_existence_check.2.1 stEmptyGlobals 0 0 0 "x" ⟨none, []⟩ rfl rfl rfl,
   getAt_no_existence_check.2.2.2 stEmptyGlobals 0 ⟨"x", 1⟩ 0 ⟨none, []⟩ rfl rfl rfl⟩

/-- The linearized superclass chain of a class: the class itself followed
by its superclass's chain. -/
def classChain : LoxClass → List LoxClass
  | .mk u n none ms => [.mk u n none ms]
  | .mk u n (some k) ms => .mk u n (some k) ms :: classChain k

/-- `findMethod` searches the class-then-superclass chain with the first
hit winning: it equals the first successful method-table lookup along
`classChain`. -/
theorem findMethod_eq_chain : ∀ (k : LoxClass) (name : String),
    k.findMethod name = (classChain k).findSome? (fun c => alget name c.methods)
  | .mk u n none ms, name => by
    cases hm : alget name ms <;>
      simp [LoxClass.findMethod, classChain, List.findSome?_cons,
        LoxClass.methods, hm]
  | .mk u n (some k') ms, name => by
    cases hm : alget name ms <;>
      simp [LoxClass.findMethod, classChain, List.findSome?_cons,
        LoxClass.methods, hm, findMethod_eq_chain k' name]

/-- Claim C3: property access on an instance searches the instance's own
fields first and returns the field value on a hit; only on a miss does it
consult the class's method table, where `findMethod` searches the class
then its superclass chain with the first hit winning (the chain equation)
and the access returns a fresh function bound to the instance (a new
function object over a new `this` frame); when both miss, the runtime
error `Undefined property 'name'.` is raised. -/
theorem instance_property_lookup_spec :
    (∀ (k : LoxClass) (name : String),
        k.findMethod name =
          (classChain k).findSome? (fun c => alget name c.methods))
  ∧ (∀ (st : St) (i : Nat) (name : Tok) (idata : InstData) (v : Value),
        st.instances.get? i = some idata →
        alget name.lexeme idata.fields = some v →
        v.isUndefB = false →
        instGet st i name = (.ok v, st))
  ∧ (∀ (st : St) (i : Nat) (name : Tok) (idata : InstData) (m : LoxFun),
        st.instances.get? i = some idata →
        alget name.lexeme idata.fields = none →
        idata.klass.findMethod name.lexeme = some m →
        instGet st i name =
          (.ok (.fn ⟨st.nextUid, m.decl, st.frames.length, m.isInitializer⟩),
           { st with
               frames := st.frames ++ [⟨some m.closure, [("this", .inst i)]⟩],
               nextUid := st.nextUid + 1 }))
  ∧ (∀ (st : St) (i : Nat) (name : Tok) (idata : InstData),
        st.instances.get? i = some idata →
        alget name.lexeme idata.fields = none →
        idata.klass.findMethod name.lexeme = none →
        instGet st i name =
          (.err ⟨name, "Undefined property '" ++ name.lexeme ++ "'."⟩, st)) := by
  refine ⟨findMethod_eq_chain, ?_, ?_, ?_⟩
  · intro st i name idata v hi hf hnu
    rw [List.get?_eq_getElem?] at hi
    simp [instGet, hi, hf, hnu]
  · intro st i name idata m hi hf hm
    rw [List.get?_eq_getElem?] at hi
    simp [instGet, hi, hf, hm, bindFn]
  · intro st i name idata hi hf hm
    rw [List.get?_eq_getElem?] at hi
    simp [instGet, hi, hf, hm]

/-- A one-method class used by concrete witnesses. -/
def initDecl : FunDecl := .mk ⟨"init", 1⟩ [] [.ret ⟨"return", 2⟩ none]

/-- A class `A` with an initializer whose body is a bare `return;`. -/
def klassA : LoxClass := .mk 0 "A" none [("init", ⟨1, initDecl, 0, true⟩)]

/-- A subclass `B` of `A` with one ordinary method `m`. -/
def klassB : LoxClass :=
  .mk 2 "B" (some klassA) [("m", ⟨3, .mk ⟨"m", 1⟩ [] [], 0, false⟩)]

/-- A state holding one `B` instance with a field `f`. -/
def stInst : St :=
  { frames := [⟨none, []⟩],
    instances := [⟨klassB, [("f", .num (.fin 7 false))]⟩],
    environment := 0, locals := [], output := [], nextUid := 5, clockMs := 0 }

/-- Witness for C3: on the concrete instance, a field hit returns the
stored value unchanged, and a miss of both fields and the inherited
method chain raises the runtime error. -/
theorem instance_property_lookup_spec_witness :
    instGet stInst 0 ⟨"f", 1⟩ = (.ok (.num (.fin 7 false)), stInst) ∧
    instGet stInst 0 ⟨"zz", 1⟩ =
      (.err ⟨⟨"zz", 1⟩, "Undefined property 'zz'."⟩, stInst) :=
  ⟨instance_property_lookup_spec.2.1 stInst 0 ⟨"f", 1⟩
      ⟨klassB, [("f", .num (.fin 7 false))]⟩ (.num (.fin 7 false)) rfl rfl rfl,
   instance_property_lookup_spec.2.2.2 stInst 0 ⟨"zz", 1⟩
      ⟨klassB, [("f", .num (.fin 7 false))]⟩ rfl rfl rfl⟩

theorem finishCallResult_ok_initializer (f : LoxFun) (r : Outcome Unit × St)
    (v : Value) (st' : St) (hinit : f.isInitializer = true)
    (h : finishCallResult f r = (.ok v, st')) :
    getAt st' f.closure 0 "this" = some v := by
  rcases r with ⟨ob, st₃⟩
  cases ob <;> simp only [finishCallResult, hinit, if_true, initThis] at h
  case ok =>
    rcases hg : getAt st₃ f.closure 0 "this" with _ | u <;> rw [hg] at h <;>
      simp_all
  case ret =>
    rcases hg : getAt st₃ f.closure 0 "this" with _ | u <;> rw [hg] at h <;>
      simp_all
  all_goals simp_all


theorem finishConstruct_ok (instId : Nat) (r : Outcome Value × St)
    (v : Value) (st' : St) (h : finishConstruct instId r = (.ok v, st')) :
    v = .inst instId := by
  rcases r with ⟨ob, st₃⟩
  cases ob <;> simp_all [finishConstruct]

/-- Claim C1: an initializer's call yields the bound `this` regardless of
any `return` inside it — whenever a call of a function whose
`isInitializer` flag is set completes normally (which covers both a bare
`return;` and falling off the end of the body), the returned value is
exactly the `this` stored at depth 0 of the function's closure; and
class construction returns the newly created instance. -/
theorem initializer_call_returns_this :
    (∀ (n : Nat) (f : LoxFun) (args : List Value) (st : St) (v : Value) (st' : St),
        f.isInitializer = true →
        funCall n f args st = (.ok v, st') →
        getAt st' f.closure 0 "this" = some v)
  ∧ (∀ (n : Nat) (k : LoxClass) (args : List Value) (st : St) (v : Value) (st' : St),
        classCall n k args st = (.ok v, st') →
        v = .inst st.instances.length) := by
  constructor
  · intro n f args st v st' hinit hcall
    cases n with
    | zero => simp [funCall] at hcall
    | succ n =>
      simp only [funCall] at hcall
      exact finishCallResult_ok_initializer f _ v st' hinit hcall
  · intro n k args st v st' hcall
    cases n with
    | zero => simp [classCall] at hcall
    | succ n =>
      simp only [classCall] at hcall
      cases hm : k.findMethod "init" with
      | none => rw [hm] at hcall; simp_all
      | some init =>
        rw [hm] at hcall
        exact finishConstruct_ok st.instances.length _ v st' hcall

/-- The initializer of `klassA` bound to instance 0 (its closure is frame
1, which maps `this` to instance 0). -/
def bmA : LoxFun := ⟨0, initDecl, 1, true⟩

/-- A state in which frame 1 is a `this` frame for instance 0 of
`klassA`. -/
def stBound : St :=
  { frames := [⟨none, []⟩, ⟨some 0, [("this", .inst 0)]⟩],
    instances := [⟨klassA, []⟩], environment := 0, locals := [],
    output := [], nextUid := 2, clockMs := 0 }

/-- Witness for C1: calling the bound initializer of `klassA` — whose
body is the bare statement `return;` — yields the bound instance, not
nil, and constructing `A()` yields the newly created instance 0. -/
theorem initializer_call_returns_this_witness :
    getAt (funCall 4 bmA [] stBound).2 bmA.closure 0 "this" =
      some (.inst 0) ∧
    Value.inst 0 = .inst stEmptyGlobals.instances.length :=
  ⟨initializer_call_returns_this.1 4 bmA [] stBound (.inst 0)
      (funCall 4 bmA [] stBound).2 rfl rfl,
   initializer_call_returns_this.2 5 klassA [] stEmptyGlobals (.inst 0)
      (classCall 5 klassA [] stEmptyGlobals).2 rfl⟩

theorem resolveLocalAux_hit (name : String) :
    ∀ (scopes : List Scope) (k d : Nat),
      d < scopes.length →
      (∀ d', d' < d → alget name (scopes.getD d' []) = none) →
      (alget name (scopes.getD d [])).isSome = true →
      resolveLocalAux name scopes k = some (k + d) := by
  intro scopes
  induction scopes with
  | nil => intro k d hd _ _; simp at hd
  | cons sc rest ih =>
    intro k d hd hmiss hhit
    cases d with
    | zero =>
      simp only [List.getD_cons_zero] at hhit
      simp [resolveLocalAux, hhit]
    | succ d =>
      have h0 : alget name sc = none := by
        have := hmiss 0 (Nat.succ_pos d)
        simpa using this
      have hrec := ih (k + 1) d (by simpa using hd)
        (fun d' hd' => by
          have := hmiss (d' + 1) (by omega)
          simpa using this)
        (by simpa using hhit)
      simp [resolveLocalAux, h0, hrec]
      omega

theorem resolveLocalAux_miss (name : String) :
    ∀ (scopes : List Scope) (k : Nat),
      (∀ sc ∈ scopes, alget name sc = none) →
      resolveLocalAux name scopes k = none := by
  intro scopes
  induction scopes with
  | nil => intro k _; rfl
  | cons sc rest ih =>
    intro k h
    have h0 : alget name sc = none := h sc (List.mem_cons_self sc rest)
    simp [resolveLocalAux, h0, ih (k + 1) (fun s hs => h s (List.mem_cons_of_mem sc hs))]

/-- Claim C4: for the side-table-keyed expressions, the resolver walks
the scope stack from innermost outward; on the first scope containing the
name it records the walk distance as the depth in the side-table (the
scope stack is kept innermost-first here, so depth `d` corresponds to the
source's array index `i = scopes.size - 1 - d`, witnessed by the reverse
indexing equation); when no scope contains the name, no entry is written
and the state is unchanged (the variable is treated as global). -/
theorem resolveLocal_records_first_hit_depth :
    (∀ (id : Nat) (name : Tok) (rs : RState) (d : Nat),
        d < rs.scopes.length →
        (∀ d', d' < d → alget name.lexeme (rs.scopes.getD d' []) = none) →
        (alget name.lexeme (rs.scopes.getD d [])).isSome = true →
        resolveLocal id name rs = { rs with table := tset id d rs.table } ∧
        rs.scopes.getD d [] =
          rs.scopes.reverse.getD (rs.scopes.length - 1 - d) [])
  ∧ (∀ (id : Nat) (name : Tok) (rs : RState),
        (∀ sc ∈ rs.scopes, alget name.lexeme sc = none) →
        resolveLocal id name rs = rs) := by
  constructor
  · intro id name rs d hd hmiss hhit
    constructor
    · have hrun := resolveLocalAux_hit name.lexeme rs.scopes 0 d hd hmiss hhit
      simp [resolveLocal, hrun]
    · have h1 : rs.scopes.length - 1 - d < rs.scopes.length := by omega
      have h2 : rs.scopes.length - 1 - (rs.scopes.length - 1 - d) = d := by omega
      rw [List.getD_eq_getElem?_getD, List.getD_eq_getElem?_getD,
        List.getElem?_reverse h1, h2]
  · intro id name rs h
    have hrun := resolveLocalAux_miss name.lexeme rs.scopes 0 h
    simp [resolveLocal, hrun]

/-- A resolver state with two scopes: the innermost binds `y`, the next
one out binds `x`. -/
def rsWit : RState :=
  { scopes := [[("y", true)], [("x", true)]], currentFunction := .none,
    currentClass := .none, table := fun _ => none, errors := [] }

/-- Witness for C4: resolving `x` records depth 1 (the first hit is one
scope out), and resolving the unbound `z` writes nothing. -/
theorem resolveLocal_records_first_hit_depth_witness :
    resolveLocal 7 ⟨"x", 1⟩ rsWit = { rsWit with table := tset 7 1 rsWit.table } ∧
    resolveLocal 8 ⟨"z", 1⟩ rsWit = rsWit := by
  constructor
  · refine (resolveLocal_records_first_hit_depth.1 7 ⟨"x", 1⟩ rsWit 1
      (by decide) ?_ (by decide)).1
    intro d' hd'
    have hz : d' = 0 := by omega
    subst hz
    decide
  · exact resolveLocal_records_first_hit_depth.2 8 ⟨"z", 1⟩ rsWit (by decide)

/-- Replace a resolver state's side-table. -/
def tableSet (rs : RState) (t : Nat → Option Nat) : RState :=
  { rs with table := t }

/-- The empty side-table (a fresh `Interpreter`'s `locals`). -/
def emptyT : Nat → Option Nat := fun _ => none

/-- Overlay of side-tables: entries of the first shadow the second. -/
def tOverlay (f g : Nat → Option Nat) : Nat → Option Nat :=
  fun k =>
    match f k with
    | some v => some v
    | none => g k

theorem tableSet_scopes (rs : RState) (t : Nat → Option Nat) :
    (tableSet rs t).scopes = rs.scopes := rfl

theorem tableSet_currentFunction (rs : RState) (t : Nat → Option Nat) :
    (tableSet rs t).currentFunction = rs.currentFunction := rfl

theorem tableSet_currentClass (rs : RState) (t : Nat → Option Nat) :
    (tableSet rs t).currentClass = rs.currentClass := rfl

theorem tableSet_table (rs : RState) (t : Nat → Option Nat) :
    (tableSet rs t).table = t := rfl

theorem tableSet_tableSet (rs : RState) (t t' : Nat → Option Nat) :
    tableSet (tableSet rs t) t' = tableSet rs t' := rfl

theorem tableSet_self (rs : RState) : tableSet rs rs.table = rs := rfl

theorem tOverlay_empty_left (g : Nat → Option Nat) : tOverlay emptyT g = g := rfl

theorem tOverlay_empty_right (f : Nat → Option Nat) : tOverlay f emptyT = f := by
  funext k
  cases h : f k <;> simp [tOverlay, h, emptyT]

theorem tOverlay_assoc (f g h : Nat → Option Nat) :
    tOverlay (tOverlay f g) h = tOverlay f (tOverlay g h) := by
  funext k
  cases hf : f k <;> simp [tOverlay, hf]

theorem tset_emptyT_overlay (k v : Nat) (t : Nat → Option Nat) :
    tOverlay (tset k v emptyT) t = tset k v t := by
  funext k'
  by_cases h : k' = k <;> simp [tset, tOverlay, emptyT, h]

theorem tOverlay_self_absorb (f g : Nat → Option Nat) :
    tOverlay f (tOverlay f g) = tOverlay f g := by
  funext k
  cases hf : f k <;> simp [tOverlay, hf]

/-- Table-parametricity of a resolver pass: the pass run over any
starting side-table `t` equals the pass run over `rs`, with the table
replaced by the pass's own writes (its table when run from the empty
table) overlaid on `t`.  This holds because the resolver only ever
writes the side-table (through `Interpreter.resolve`) and never reads
it. -/
def TPara (F : RState → RState) : Prop :=
  ∀ rs t, F (tableSet rs t) =
    tableSet (F rs) (tOverlay (F (tableSet rs emptyT)).table t)

theorem TPara.congr {F G : RState → RState} (h : ∀ rs, F rs = G rs)
    (hG : TPara G) : TPara F := by
  intro rs t
  rw [h, h, h]
  exact hG rs t

theorem TPara.of_pres {F : RState → RState}
    (h : ∀ rs t, F (tableSet rs t) = tableSet (F rs) t) : TPara F := by
  intro rs t
  rw [h rs t, h rs emptyT, tableSet_table, tOverlay_empty_left]

theorem TPara.comp {F G : RState → RState} (hF : TPara F) (hG : TPara G) :
    TPara (fun rs => G (F rs)) := by
  intro rs t
  have hd : (G (F (tableSet rs emptyT))).table =
      tOverlay ((G (tableSet (F rs) emptyT)).table)
        ((F (tableSet rs emptyT)).table) := by
    rw [hF rs emptyT, tOverlay_empty_right, hG (F rs) _]
    simp [tableSet_table]
  simp only []
  rw [hF rs t, hG (F rs) _, hd, tOverlay_assoc]

theorem TPara.restoreCF {F : RState → RState} (hF : TPara F) :
    TPara (fun rs => { F rs with currentFunction := rs.currentFunction }) := by
  intro rs t
  simp only []
  rw [hF rs t, hF rs emptyT]
  rfl

theorem TPara.restoreCC {F : RState → RState} (hF : TPara F) :
    TPara (fun rs => { F rs with currentClass := rs.currentClass }) := by
  intro rs t
  simp only []
  rw [hF rs t, hF rs emptyT]
  rfl

theorem beginScope_pres : ∀ (rs : RState) (t : Nat → Option Nat),
    beginScope (tableSet rs t) = tableSet (beginScope rs) t := fun _ _ => rfl

theorem endScope_pres : ∀ (rs : RState) (t : Nat → Option Nat),
    endScope (tableSet rs t) = tableSet (endScope rs) t := fun _ _ => rfl

theorem remit_pres (msg : String) : ∀ (rs : RState) (t : Nat → Option Nat),
    remit msg (tableSet rs t) = tableSet (remit msg rs) t := fun _ _ => rfl

theorem rdeclare_pres (name : Tok) : ∀ (rs : RState) (t : Nat → Option Nat),
    rdeclare name (tableSet rs t) = tableSet (rdeclare name rs) t := by
  intro rs t
  unfold rdeclare
  cases h : rs.scopes with
  | nil => simp [tableSet_scopes, h, tableSet]
  | cons sc rest =>
    simp only [tableSet_scopes, h]
    by_cases hh : (alget name.lexeme sc).isSome <;>
      simp [hh, remit, tableSet]

theorem rdefine_pres (name : Tok) : ∀ (rs : RState) (t : Nat → Option Nat),
    rdefine name (tableSet rs t) = tableSet (rdefine name rs) t := by
  intro rs t
  unfold rdefine
  cases h : rs.scopes with
  | nil => simp [tableSet_scopes, h, tableSet]
  | cons sc rest => simp [tableSet_scopes, h, tableSet]

theorem rsetTop_pres (name : String) (b : Bool) :
    ∀ (rs : RState) (t : Nat → Option Nat),
      rsetTop name b (tableSet rs t) = tableSet (rsetTop name b rs) t := by
  intro rs t
  unfold rsetTop
  cases h : rs.scopes with
  | nil => simp [tableSet_scopes, h, tableSet]
  | cons sc rest => simp [tableSet_scopes, h, tableSet]

theorem params_fold_pres (ps : List Tok) :
    ∀ (rs : RState) (t : Nat → Option Nat),
      ps.foldl (fun acc p => rdefine p (rdeclare p acc)) (tableSet rs t) =
        tableSet (ps.foldl (fun acc p => rdefine p (rdeclare p acc)) rs) t := by
  induction ps with
  | nil => intro rs t; rfl
  | cons p rest ih =>
    intro rs t
    simp only [List.foldl_cons]
    rw [rdeclare_pres p rs t, rdefine_pres p _ t, ih]

theorem tpara_resolveLocal (id : Nat) (name : Tok) :
    TPara (resolveLocal id name) := by
  intro rs t
  unfold resolveLocal
  cases h : resolveLocalAux name.lexeme rs.scopes 0 with
  | none =>
    simp only [tableSet_scopes, h]
    rw [tableSet_table, tOverlay_empty_left]
  | some d =>
    simp only [tableSet_scopes, h, tableSet_table]
    show tableSet rs (tset id d t) =
      tableSet (tableSet rs (tset id d rs.table))
        (tOverlay (tset id d emptyT) t)
    rw [tableSet_tableSet, tset_emptyT_overlay]

/-- The own-initializer check at the head of the resolver's `variable`
case, as a state transformer. -/
def rvnCond (name : Tok) (rs : RState) : RState :=
  match rs.scopes with
  | [] => rs
  | sc :: _ =>
    if alget name.lexeme sc = some false then
      remit "Can't read local variable in its own initializer." rs
    else rs

theorem rvnCond_pres (name : Tok) : ∀ (rs : RState) (t : Nat → Option Nat),
    rvnCond name (tableSet rs t) = tableSet (rvnCond name rs) t := by
  intro rs t
  unfold rvnCond
  cases h : rs.scopes with
  | nil => simp [tableSet_scopes, h]
  | cons sc rest =>
    simp only [tableSet_scopes, h]
    by_cases hh : alget name.lexeme sc = some false <;>
      simp [hh, remit, tableSet]

theorem tpara_resolveVariableNode (id : Nat) (name : Tok) :
    TPara (resolveVariableNode id name) :=
  TPara.congr (fun _ => rfl)
    ((TPara.of_pres (rvnCond_pres name)).comp (tpara_resolveLocal id name))

theorem tpara_id : TPara (fun rs => rs) := TPara.of_pres (fun _ _ => rfl)

theorem tpara_beginScope : TPara beginScope := TPara.of_pres beginScope_pres

theorem tpara_endScope : TPara endScope := TPara.of_pres endScope_pres

theorem tpara_remit (msg : String) : TPara (remit msg) :=
  TPara.of_pres (remit_pres msg)

theorem tpara_rdeclare (name : Tok) : TPara (rdeclare name) :=
  TPara.of_pres (rdeclare_pres name)

theorem tpara_rdefine (name : Tok) : TPara (rdefine name) :=
  TPara.of_pres (rdefine_pres name)

theorem tpara_rsetTop (name : String) (b : Bool) : TPara (rsetTop name b) :=
  TPara.of_pres (rsetTop_pres name b)

theorem tpara_setCC (c : ClassType) :
    TPara (fun rs => { rs with currentClass := c }) :=
  TPara.of_pres (fun _ _ => rfl)

theorem tpara_setCF (c : FunctionType) :
    TPara (fun rs => { rs with currentFunction := c }) :=
  TPara.of_pres (fun _ _ => rfl)

theorem tpara_params_fold (ps : List Tok) :
    TPara (fun rs => ps.foldl (fun acc p => rdefine p (rdeclare p acc)) rs) :=
  TPara.of_pres (params_fold_pres ps)

theorem tpara_static_if (c : Prop) [Decidable c] {F G : RState → RState}
    (hF : TPara F) (hG : TPara G) :
    TPara (fun rs => if c then F rs else G rs) := by
  by_cases h : c
  · simp only [if_pos h]; exact hF
  · simp only [if_neg h]; exact hG

theorem tpara_ifCC (c : ClassType) {F G : RState → RState}
    (hF : TPara F) (hG : TPara G) :
    TPara (fun rs => if rs.currentClass = c then F rs else G rs) := by
  intro rs t
  by_cases h : rs.currentClass = c
  · simp only [tableSet_currentClass, if_pos h]
    exact hF rs t
  · simp only [tableSet_currentClass, if_neg h]
    exact hG rs t

theorem tpara_condRemitCF (c : FunctionType) (msg : String) :
    TPara (fun rs =>
      if rs.currentFunction = c then remit msg rs else rs) := by
  intro rs t
  by_cases h : rs.currentFunction = c
  · simp only [tableSet_currentFunction, if_pos h]
    exact tpara_remit msg rs t
  · simp only [tableSet_currentFunction, if_neg h]
    exact tpara_id rs t

theorem tpara_superCheck :
    TPara (fun rs =>
      if rs.currentClass = .none then
        remit "Can't use 'super' outside of a class." rs
      else if rs.currentClass ≠ .subclass then
        remit "Can't use 'super' in a class with no superclass." rs
      else rs) := by
  intro rs t
  by_cases h1 : rs.currentClass = .none
  · simp only [tableSet_currentClass, if_pos h1]
    exact tpara_remit _ rs t
  · by_cases h2 : rs.currentClass ≠ .subclass
    · simp only [tableSet_currentClass, if_neg h1, if_pos h2]
      exact tpara_remit _ rs t
    · simp only [tableSet_currentClass, if_neg h1, if_neg h2]
      exact tpara_id rs t


mutual

/-- Table-parametricity of `resolveStmt`: the resolver writes the
side-table but never reads it, so its output table is its own writes
overlaid on whatever table it started from. -/
theorem tpara_resolveStmt : ∀ s : Stmt, TPara (resolveStmt s)
  | .block ss =>
    TPara.congr (fun rs => by rw [resolveStmt])
      (tpara_beginScope |>.comp (tpara_resolveStmts ss) |>.comp tpara_endScope)
  | .classDecl name none ms =>
    TPara.congr (fun rs => by rw [resolveStmt])
      (TPara.restoreCC
        (tpara_setCC .cls |>.comp (tpara_rdeclare name)
          |>.comp (tpara_rdefine name)
          |>.comp tpara_beginScope
          |>.comp (tpara_rsetTop "this" true)
          |>.comp (tpara_resolveMethods ms)
          |>.comp tpara_endScope))
  | .classDecl name (some (sid, stok)) ms =>
    TPara.congr (fun rs => by rw [resolveStmt])
      (TPara.restoreCC
        (tpara_setCC .cls |>.comp (tpara_rdeclare name)
          |>.comp (tpara_rdefine name)
          |>.comp (tpara_static_if (name.lexeme = stok.lexeme)
            (tpara_remit "A class can't inherit from itself.") tpara_id)
          |>.comp (tpara_setCC .subclass)
          |>.comp (tpara_resolveVariableNode sid stok)
          |>.comp tpara_beginScope
          |>.comp (tpara_rsetTop "super" true)
          |>.comp tpara_beginScope
          |>.comp (tpara_rsetTop "this" true)
          |>.comp (tpara_resolveMethods ms)
          |>.comp tpara_endScope
          |>.comp tpara_endScope))
  | .expression e =>
    TPara.congr (fun rs => by rw [resolveStmt]) (tpara_resolveExpr e)
  | .funDecl f =>
    TPara.congr (fun rs => by rw [resolveStmt])
      (tpara_rdeclare f.name |>.comp (tpara_rdefine f.name)
        |>.comp (tpara_resolveFunction f .function))
  | .ifS c th none =>
    TPara.congr (fun rs => by rw [resolveStmt])
      (tpara_resolveExpr c |>.comp (tpara_resolveStmt th))
  | .ifS c th (some eb) =>
    TPara.congr (fun rs => by rw [resolveStmt])
      (tpara_resolveExpr c |>.comp (tpara_resolveStmt th)
        |>.comp (tpara_resolveStmt eb))
  | .print e =>
    TPara.congr (fun rs => by rw [resolveStmt]) (tpara_resolveExpr e)
  | .ret kw none =>
    TPara.congr (fun rs => by rw [resolveStmt])
      (tpara_condRemitCF .none "Can't return from top-level code.")
  | .ret kw (some v) =>
    TPara.congr (fun rs => by rw [resolveStmt])
      (tpara_condRemitCF .none "Can't return from top-level code."
        |>.comp (tpara_condRemitCF .initializer
          "Can't return a value from an initializer.")
        |>.comp (tpara_resolveExpr v))
  | .varDecl name none =>
    TPara.congr (fun rs => by rw [resolveStmt])
      (tpara_rdeclare name |>.comp (tpara_rdefine name))
  | .varDecl name (some e) =>
    TPara.congr (fun rs => by rw [resolveStmt])
      (tpara_rdeclare name |>.comp (tpara_resolveExpr e)
        |>.comp (tpara_rdefine name))
  | .whileS c b =>
    TPara.congr (fun rs => by rw [resolveStmt])
      (tpara_resolveExpr c |>.comp (tpara_resolveStmt b))
termination_by s => sizeOf s

theorem tpara_resolveStmts : ∀ ss : List Stmt, TPara (resolveStmts ss)
  | [] => TPara.congr (fun rs => by rw [resolveStmts]) tpara_id
  | s :: rest =>
    TPara.congr (fun rs => by rw [resolveStmts])
      (tpara_resolveStmt s |>.comp (tpara_resolveStmts rest))
termination_by ss => sizeOf ss

theorem tpara_resolveMethods : ∀ ms : List FunDecl, TPara (resolveMethods ms)
  | [] => TPara.congr (fun rs => by rw [resolveMethods]) tpara_id
  | m :: rest =>
    TPara.congr (fun rs => by rw [resolveMethods])
      (tpara_resolveFunction m
          (if m.name.lexeme = "init" then .initializer else .method)
        |>.comp (tpara_resolveMethods rest))
termination_by ms => sizeOf ms

theorem tpara_resolveFunction :
    ∀ (f : FunDecl) (ty : FunctionType), TPara (resolveFunction f ty)
  | .mk nm ps bd, ty =>
    TPara.congr (fun rs => by rw [resolveFunction])
      (TPara.restoreCF
        (tpara_setCF ty |>.comp tpara_beginScope
          |>.comp (tpara_params_fold ps)
          |>.comp (tpara_resolveStmts bd)
          |>.comp tpara_endScope))
termination_by f _ => sizeOf f

theorem tpara_resolveExpr : ∀ e : Expr, TPara (resolveExpr e)
  | .assignment id name value =>
    TPara.congr (fun rs => by rw [resolveExpr])
      (tpara_resolveExpr value |>.comp (tpara_resolveLocal id name))
  | .binary l op opTok r =>
    TPara.congr (fun rs => by rw [resolveExpr])
      (tpara_resolveExpr l |>.comp (tpara_resolveExpr r))
  | .call callee paren args =>
    TPara.congr (fun rs => by rw [resolveExpr])
      (tpara_resolveExpr callee |>.comp (tpara_resolveExprs args))
  | .get o name =>
    TPara.congr (fun rs => by rw [resolveExpr]) (tpara_resolveExpr o)
  | .grouping e =>
    TPara.congr (fun rs => by rw [resolveExpr]) (tpara_resolveExpr e)
  | .literal v =>
    TPara.congr (fun rs => by rw [resolveExpr]) tpara_id
  | .logical l op r =>
    TPara.congr (fun rs => by rw [resolveExpr])
      (tpara_resolveExpr l |>.comp (tpara_resolveExpr r))
  | .set o name v =>
    TPara.congr (fun rs => by rw [resolveExpr])
      (tpara_resolveExpr v |>.comp (tpara_resolveExpr o))
  | .superE id kw m =>
    TPara.congr (fun rs => by rw [resolveExpr])
      (tpara_superCheck |>.comp (tpara_resolveLocal id kw))
  | .thisE id kw =>
    TPara.congr (fun rs => by rw [resolveExpr])
      (tpara_ifCC .none
        (tpara_remit "Can't use 'this' outside of a class.")
        (tpara_resolveLocal id kw))
  | .unary op opTok r =>
    TPara.congr (fun rs => by rw [resolveExpr]) (tpara_resolveExpr r)
  | .varE id name =>
    TPara.congr (fun rs => by rw [resolveExpr])
      (tpara_resolveVariableNode id name)
termination_by e => sizeOf e

theorem tpara_resolveExprs : ∀ es : List Expr, TPara (resolveExprs es)
  | [] => TPara.congr (fun rs => by rw [resolveExprs]) tpara_id
  | e :: rest =>
    TPara.congr (fun rs => by rw [resolveExprs])
      (tpara_resolveExpr e |>.comp (tpara_resolveExprs rest))
termination_by es => sizeOf es

end

/-- Claim C8: resolver idempotence.  Running the resolver a second time
over the same program, from fresh resolver state (empty scope stack,
`currentFunction` and `currentClass` at `none`) but against the
side-table produced by the first run, yields a side-table with exactly
the same entries at exactly the same depths: every key maps to the same
depth as after the first run.  (A second run against a fresh side-table
is the identical computation, so its table is equal outright.) -/
theorem resolver_idempotent (prog : List Stmt) (k : Nat) :
    (resolveStmts prog
        { freshR with table := (resolveStmts prog freshR).table }).table k =
      (resolveStmts prog freshR).table k := by
  have h : resolveStmts prog (tableSet freshR ((resolveStmts prog freshR).table)) =
      tableSet (resolveStmts prog freshR)
        (tOverlay ((resolveStmts prog freshR).table)
          ((resolveStmts prog freshR).table)) :=
    tpara_resolveStmts prog freshR ((resolveStmts prog freshR).table)
  rw [show ({ freshR with table := (resolveStmts prog freshR).table } : RState) =
    tableSet freshR ((resolveStmts prog freshR).table) from rfl, h]
  show tOverlay ((resolveStmts prog freshR).table)
    ((resolveStmts prog freshR).table) k = (resolveStmts prog freshR).table k
  cases hr : (resolveStmts prog freshR).table k <;> simp [tOverlay, hr]
